import Mathlib

/-!
Verification of the computational core of `app.py` (single-site-plan
generator): the scale-fit block that places a real-world rectangle into the
drawing area, and the slippy-map tile projector used for the key plan.

The scale-fit arithmetic is embedded over `ℚ` (the Python source uses float
literals whose values here are all exactly representable rationals); the
tile projector, which uses `tan`, `cos`, `log` and `π`, is embedded over `ℝ`.
-/

/-! ## Scale-fit block: page constants, exactly as in `app.py` lines 172-182 -/

def PAGE_W_MM : ℚ := 420
def PAGE_H_MM : ℚ := 297
def LEFT_MARGIN : ℚ := 12
def RIGHT_MARGIN : ℚ := 12
def TOP_MARGIN : ℚ := 12
def BOTTOM_MARGIN : ℚ := 12
def DRAWING_AREA_W : ℚ := PAGE_W_MM * (62 / 100)
def DRAWING_AREA_H : ℚ := PAGE_H_MM - TOP_MARGIN - BOTTOM_MARGIN - 36
def DRAWING_ORIGIN_X : ℚ := LEFT_MARGIN + 2
def DRAWING_ORIGIN_Y : ℚ := BOTTOM_MARGIN + 36

/-! ## Scale-fit block, `app.py` lines 237-249 -/

/-- `SCALE = 100.0` (line 237). -/
def SCALE : ℚ := 100

/-- `mm_per_m = 1000.0 / SCALE` (line 238). -/
def mm_per_m : ℚ := 1000 / SCALE

/-- `inner_pad = 8.0` (line 239). -/
def inner_pad : ℚ := 8

/-- `usable_w = DRAWING_AREA_W - 2 * inner_pad` (line 240). -/
def usable_w : ℚ := DRAWING_AREA_W - 2 * inner_pad

/-- `usable_h = DRAWING_AREA_H - 2 * inner_pad` (line 240). -/
def usable_h : ℚ := DRAWING_AREA_H - 2 * inner_pad

/-- Lines 241-245: `req_w_mm = site_width_m * mm_per_m`,
`req_h_mm = site_length_m * mm_per_m`, then
`mm_per_m_use = mm_per_m` if both fit inside the usable area, else
`min(usable_w / site_width_m, usable_h / site_length_m)`. -/
def mm_per_m_use (site_width_m site_length_m : ℚ) : ℚ :=
  if site_width_m * mm_per_m ≤ usable_w ∧ site_length_m * mm_per_m ≤ usable_h then
    mm_per_m
  else
    min (usable_w / site_width_m) (usable_h / site_length_m)

/-- `site_w_mm = site_width_m * mm_per_m_use` (line 247). -/
def site_w_mm (site_width_m site_length_m : ℚ) : ℚ :=
  site_width_m * mm_per_m_use site_width_m site_length_m

/-- `site_h_mm = site_length_m * mm_per_m_use` (line 247). -/
def site_h_mm (site_width_m site_length_m : ℚ) : ℚ :=
  site_length_m * mm_per_m_use site_width_m site_length_m

/-- `site_x = DRAWING_ORIGIN_X + inner_pad + (usable_w - site_w_mm) / 2` (line 248). -/
def site_x (site_width_m site_length_m : ℚ) : ℚ :=
  DRAWING_ORIGIN_X + inner_pad + (usable_w - site_w_mm site_width_m site_length_m) / 2

/-- `site_y = DRAWING_ORIGIN_Y + inner_pad + (usable_h - site_h_mm) / 2` (line 249). -/
def site_y (site_width_m site_length_m : ℚ) : ℚ :=
  DRAWING_ORIGIN_Y + inner_pad + (usable_h - site_h_mm site_width_m site_length_m) / 2

/-- The scale-fit formula of lines 240-245 with the region dimensions and
padding (which the source fixes as the globals `DRAWING_AREA_W`,
`DRAWING_AREA_H`, `inner_pad`) made explicit parameters; the usable area is
`region - 2 * padding` on each axis, exactly as in line 240. -/
def fit_scale (w l region_w region_h padding : ℚ) : ℚ :=
  if w * mm_per_m ≤ region_w - 2 * padding ∧ l * mm_per_m ≤ region_h - 2 * padding then
    mm_per_m
  else
    min ((region_w - 2 * padding) / w) ((region_h - 2 * padding) / l)

/-- Placed width under `fit_scale` (line 247, parameterized). -/
def fit_w (w l region_w region_h padding : ℚ) : ℚ :=
  w * fit_scale w l region_w region_h padding

/-- Placed height under `fit_scale` (line 247, parameterized). -/
def fit_h (w l region_w region_h padding : ℚ) : ℚ :=
  l * fit_scale w l region_w region_h padding

theorem mm_per_m_use_eq_fit_scale (w l : ℚ) :
    mm_per_m_use w l = fit_scale w l DRAWING_AREA_W DRAWING_AREA_H inner_pad := rfl

/-- Claim C1: for every positive real-world rectangle and valid region/padding,
the fit first tries the nominal scale (1:100, i.e. `mm_per_m = 10` display-mm
per meter); if the rectangle placed at that scale fits inside the usable area
(region minus `2 × padding`) on both axes, exactly that nominal scale is used;
otherwise the scale is `min(usable_w / real_w, usable_h / real_h)`, one uniform
scalar applied to both dimensions. -/
theorem fit_scale_nominal_then_binding (w l region_w region_h padding : ℚ)
    (hw : 0 < w) (hl : 0 < l) (hrw : 0 < region_w) (hrh : 0 < region_h)
    (hp : 0 ≤ padding) (hpr : 2 * padding < min region_w region_h) :
    mm_per_m = 10
    ∧ (w * mm_per_m ≤ region_w - 2 * padding ∧ l * mm_per_m ≤ region_h - 2 * padding →
        fit_scale w l region_w region_h padding = mm_per_m)
    ∧ (¬(w * mm_per_m ≤ region_w - 2 * padding ∧ l * mm_per_m ≤ region_h - 2 * padding) →
        fit_scale w l region_w region_h padding =
          min ((region_w - 2 * padding) / w) ((region_h - 2 * padding) / l))
    ∧ fit_w w l region_w region_h padding = w * fit_scale w l region_w region_h padding
    ∧ fit_h w l region_w region_h padding = l * fit_scale w l region_w region_h padding := by
  refine ⟨by norm_num [mm_per_m, SCALE], ?_, ?_, rfl, rfl⟩
  · intro h
    simp [fit_scale, h]
  · intro h
    simp [fit_scale, h]

theorem fit_scale_nominal_then_binding_witness :
    mm_per_m = 10
    ∧ ((15 : ℚ) * mm_per_m ≤ DRAWING_AREA_W - 2 * inner_pad
        ∧ (12 : ℚ) * mm_per_m ≤ DRAWING_AREA_H - 2 * inner_pad →
        fit_scale 15 12 DRAWING_AREA_W DRAWING_AREA_H inner_pad = mm_per_m)
    ∧ (¬((15 : ℚ) * mm_per_m ≤ DRAWING_AREA_W - 2 * inner_pad
        ∧ (12 : ℚ) * mm_per_m ≤ DRAWING_AREA_H - 2 * inner_pad) →
        fit_scale 15 12 DRAWING_AREA_W DRAWING_AREA_H inner_pad =
          min ((DRAWING_AREA_W - 2 * inner_pad) / 15) ((DRAWING_AREA_H - 2 * inner_pad) / 12))
    ∧ fit_w 15 12 DRAWING_AREA_W DRAWING_AREA_H inner_pad
        = 15 * fit_scale 15 12 DRAWING_AREA_W DRAWING_AREA_H inner_pad
    ∧ fit_h 15 12 DRAWING_AREA_W DRAWING_AREA_H inner_pad
        = 12 * fit_scale 15 12 DRAWING_AREA_W DRAWING_AREA_H inner_pad :=
  fit_scale_nominal_then_binding 15 12 DRAWING_AREA_W DRAWING_AREA_H inner_pad
    (by norm_num) (by norm_num)
    (by norm_num [DRAWING_AREA_W, PAGE_W_MM])
    (by norm_num [DRAWING_AREA_H, PAGE_H_MM, TOP_MARGIN, BOTTOM_MARGIN])
    (by norm_num [inner_pad])
    (by norm_num [DRAWING_AREA_W, DRAWING_AREA_H, PAGE_W_MM, PAGE_H_MM,
      TOP_MARGIN, BOTTOM_MARGIN, inner_pad])

/-- Claim C3: the placed rectangle is centered inside the padded drawing
region, `offset = padding + (usable - placed) / 2` on each axis (measured from
the drawing-area origin), and satisfies the containment invariant
`placed ≤ usable` on both axes. -/
theorem site_placement_centered_contained (w l : ℚ) (hw : 0 < w) (hl : 0 < l) :
    site_x w l = DRAWING_ORIGIN_X + (inner_pad + (usable_w - site_w_mm w l) / 2)
    ∧ site_y w l = DRAWING_ORIGIN_Y + (inner_pad + (usable_h - site_h_mm w l) / 2)
    ∧ site_w_mm w l ≤ usable_w
    ∧ site_h_mm w l ≤ usable_h := by
  refine ⟨by rw [site_x, add_assoc], by rw [site_y, add_assoc], ?_, ?_⟩
  · by_cases h : w * mm_per_m ≤ usable_w ∧ l * mm_per_m ≤ usable_h
    · rw [site_w_mm, mm_per_m_use, if_pos h]
      exact h.1
    · rw [site_w_mm, mm_per_m_use, if_neg h]
      calc w * min (usable_w / w) (usable_h / l)
          ≤ w * (usable_w / w) :=
            mul_le_mul_of_nonneg_left (min_le_left _ _) hw.le
        _ = usable_w := by
            rw [mul_comm, div_mul_cancel₀ _ (ne_of_gt hw)]
  · by_cases h : w * mm_per_m ≤ usable_w ∧ l * mm_per_m ≤ usable_h
    · rw [site_h_mm, mm_per_m_use, if_pos h]
      exact h.2
    · rw [site_h_mm, mm_per_m_use, if_neg h]
      calc l * min (usable_w / w) (usable_h / l)
          ≤ l * (usable_h / l) :=
            mul_le_mul_of_nonneg_left (min_le_right _ _) hl.le
        _ = usable_h := by
            rw [mul_comm, div_mul_cancel₀ _ (ne_of_gt hl)]

theorem site_placement_centered_contained_witness :
    site_x 15 12 = DRAWING_ORIGIN_X + (inner_pad + (usable_w - site_w_mm 15 12) / 2)
    ∧ site_y 15 12 = DRAWING_ORIGIN_Y + (inner_pad + (usable_h - site_h_mm 15 12) / 2)
    ∧ site_w_mm 15 12 ≤ usable_w
    ∧ site_h_mm 15 12 ≤ usable_h :=
  site_placement_centered_contained 15 12 (by norm_num) (by norm_num)

/-- Claim C8, counterexample: with `real_w = 0` (and `real_h = 15`) the
scale-fit block raises no error at all: the nominal-fit test
`0 * 10 ≤ usable_w ∧ 150 ≤ usable_h` passes, so it silently returns the
nominal scale and a degenerate placed rectangle of width `0` — contradicting
the claim that a zero dimension fails with InvalidInput and yields no result. -/
theorem fit_degenerate_counterexample :
    mm_per_m_use 0 15 = mm_per_m ∧ site_w_mm 0 15 = 0 := by
  have hcond : (0 : ℚ) * mm_per_m ≤ usable_w ∧ (15 : ℚ) * mm_per_m ≤ usable_h := by
    norm_num [mm_per_m, SCALE, usable_w, usable_h, DRAWING_AREA_W, DRAWING_AREA_H,
      PAGE_W_MM, PAGE_H_MM, TOP_MARGIN, BOTTOM_MARGIN, inner_pad]
  constructor
  · rw [mm_per_m_use, if_pos hcond]
  · rw [site_w_mm, mm_per_m_use, if_pos hcond]
    ring

/-- Claim C8, amended: the scale-fit block performs no input validation; for a
zero or negative `real_w` whose companion dimension passes the nominal-fit
test, it silently returns the nominal scale together with a degenerate
(zero- or negative-width) placed rectangle, rather than failing. -/
theorem fit_no_validation_degenerate (w l : ℚ) (hw : w ≤ 0)
    (hl : l * mm_per_m ≤ usable_h) :
    mm_per_m_use w l = mm_per_m
    ∧ site_w_mm w l = w * mm_per_m
    ∧ site_w_mm w l ≤ 0 := by
  have hcond : w * mm_per_m ≤ usable_w ∧ l * mm_per_m ≤ usable_h := by
    refine ⟨?_, hl⟩
    have h1 : w * mm_per_m ≤ 0 := by
      have : (0 : ℚ) < mm_per_m := by norm_num [mm_per_m, SCALE]
      nlinarith
    have h2 : (0 : ℚ) ≤ usable_w := by
      norm_num [usable_w, DRAWING_AREA_W, PAGE_W_MM, inner_pad]
    linarith
  have hscale : mm_per_m_use w l = mm_per_m := by
    rw [mm_per_m_use, if_pos hcond]
  refine ⟨hscale, by rw [site_w_mm, hscale], ?_⟩
  rw [site_w_mm, hscale]
  have : (0 : ℚ) < mm_per_m := by norm_num [mm_per_m, SCALE]
  nlinarith

theorem fit_no_validation_degenerate_witness :
    mm_per_m_use (-3) 15 = mm_per_m
    ∧ site_w_mm (-3) 15 = -3 * mm_per_m
    ∧ site_w_mm (-3) 15 ≤ 0 :=
  fit_no_validation_degenerate (-3) 15 (by norm_num)
    (by norm_num [mm_per_m, SCALE, usable_h, DRAWING_AREA_H,
      PAGE_H_MM, TOP_MARGIN, BOTTOM_MARGIN, inner_pad])

/-! ## Geo-tile projector, `app.py` lines 124-169 -/

/-- `math.radians`: degrees to radians. -/
noncomputable def radians (d : ℝ) : ℝ := d * (Real.pi / 180)

/-- `latlon_to_tile_xy` (lines 124-129): with `n = 2.0 ** zoom`,
`xtile = (lon_deg + 180.0) / 360.0 * n` and
`ytile = (1.0 - log(tan(lat_rad) + 1 / cos(lat_rad)) / pi) / 2.0 * n`. -/
noncomputable def latlon_to_tile_xy (lat_deg lon_deg : ℝ) (zoom : ℕ) : ℝ × ℝ :=
  ((lon_deg + 180) / 360 * 2 ^ zoom,
   (1 - Real.log (Real.tan (radians lat_deg) + 1 / Real.cos (radians lat_deg)) / Real.pi)
     / 2 * 2 ^ zoom)

/-- The standard slippy-map forward projection as worded by the spec:
`n = 2^zoom`; fractional tile-x `= (lon + 180)/360 × n`; fractional tile-y
`= (1 - ln(tan(lat_rad) + sec(lat_rad))/π)/2 × n`, where `sec` is the
reciprocal cosine. Stated separately from the source-derived
`latlon_to_tile_xy` so the two can be compared. -/
noncomputable def slippy_spec (lat lon : ℝ) (zoom : ℕ) : ℝ × ℝ :=
  ((lon + 180) / 360 * 2 ^ zoom,
   (1 - Real.log (Real.tan (lat * Real.pi / 180) + (Real.cos (lat * Real.pi / 180))⁻¹)
       / Real.pi) / 2 * 2 ^ zoom)

/-- Claim C2: for every latitude, longitude and zoom, the fractional tile
coordinates computed by `latlon_to_tile_xy` equal the standard slippy-map
forward projection (stated for all real inputs, which covers the claim's
range of latitudes in `(-90, 90)`, longitudes in `[-180, 180]` and
non-negative integer zooms). -/
theorem latlon_to_tile_xy_eq_slippy_spec (lat lon : ℝ) (zoom : ℕ) :
    latlon_to_tile_xy lat lon zoom = slippy_spec lat lon zoom := by
  have h : radians lat = lat * Real.pi / 180 := by rw [radians]; ring
  rw [latlon_to_tile_xy, slippy_spec, h, one_div]

/-- Claim C9, counterexample: at latitude exactly `90.0` (and `-90.0`) the
projector does not fail at all — `latlon_to_tile_xy` has no validation or
error path, and it evaluates the Mercator formula, returning an ordinary
x tile coordinate `(0 + 180)/360 × 2^0 = 1/2`; this contradicts the claim
that an InvalidInput error is raised before the formula is evaluated. -/
theorem latlon_pole_evaluates_counterexample :
    (latlon_to_tile_xy 90 0 0).1 = 1 / 2 ∧ (latlon_to_tile_xy (-90) 0 0).1 = 1 / 2 := by
  constructor <;> norm_num [latlon_to_tile_xy]

/-- Claim C9, amended: the code performs no latitude validation; for
`lat = ±90` the Mercator formula is evaluated like for any other latitude and
a result is returned (no InvalidInput error exists in the code). The x tile
coordinate is the ordinary `(lon + 180)/360 × 2^zoom`; the y formula is
evaluated right at its singularity — its `tan(lat_rad) + sec(lat_rad)`
argument collapses to the singular point `0` of the logarithm (stated here in
Mathlib's total real semantics; in the source's floating point the y value is
a finite but meaningless number). -/
theorem latlon_no_latitude_validation (lon : ℝ) (zoom : ℕ) :
    (latlon_to_tile_xy 90 lon zoom).1 = (lon + 180) / 360 * 2 ^ zoom
    ∧ (latlon_to_tile_xy (-90) lon zoom).1 = (lon + 180) / 360 * 2 ^ zoom
    ∧ Real.tan (radians 90) + 1 / Real.cos (radians 90) = 0 := by
  refine ⟨rfl, rfl, ?_⟩
  have h : radians 90 = Real.pi / 2 := by rw [radians]; ring
  rw [h, Real.tan_pi_div_two, Real.cos_pi_div_two]
  norm_num

/-- `x_center = int(math.floor(xtile_f))` (line 143). -/
noncomputable def x_center (lat lon : ℝ) (zoom : ℕ) : ℤ :=
  ⌊(latlon_to_tile_xy lat lon zoom).1⌋

/-- `y_center = int(math.floor(ytile_f))` (line 143). -/
noncomputable def y_center (lat lon : ℝ) (zoom : ℕ) : ℤ :=
  ⌊(latlon_to_tile_xy lat lon zoom).2⌋

/-- Claim C7, counterexample: at the valid input `lat = 0`, `lon = 180`,
`zoom = 0` the fractional x tile coordinate is `(180 + 180)/360 × 1 = 1`, and
the code's center tile `x_center = floor(1) = 1` lies outside the claimed
clamped range `[0, 2^0 - 1] = [0, 0]`: line 143 applies no clamping. -/
theorem center_tile_unclamped_counterexample :
    x_center 0 180 0 = 1 ∧ ¬(x_center 0 180 0 ≤ 2 ^ (0 : ℕ) - 1) := by
  have harg : (latlon_to_tile_xy 0 180 0).1 = 1 := by
    rw [latlon_to_tile_xy]; norm_num
  have h : x_center 0 180 0 = 1 := by rw [x_center, harg, Int.floor_one]
  exact ⟨h, by rw [h]; norm_num⟩

/-- Claim C7, amended: the center tile address is the floor of each
fractional tile coordinate, with no clamping applied; in particular at
`lon = 180` (a valid longitude) the x index is `2^zoom`, outside
`[0, 2^zoom - 1]`. -/
theorem center_tile_floor_no_clamp (lat lon : ℝ) (zoom : ℕ) :
    x_center lat lon zoom = ⌊(latlon_to_tile_xy lat lon zoom).1⌋
    ∧ y_center lat lon zoom = ⌊(latlon_to_tile_xy lat lon zoom).2⌋
    ∧ x_center lat 180 zoom = 2 ^ zoom := by
  refine ⟨rfl, rfl, ?_⟩
  have harg : (latlon_to_tile_xy lat 180 zoom).1 = ((2 ^ zoom : ℤ) : ℝ) := by
    rw [latlon_to_tile_xy]
    push_cast
    norm_num
  rw [x_center, harg, Int.floor_intCast]

/-! ## Tile enumeration and mosaic stitching, `app.py` lines 131-169 -/

/-- Python's `range(a, b)` as a list of integers. -/
def pyRange (a b : ℤ) : List ℤ :=
  (List.range (b - a).toNat).map (fun i : ℕ => a + (i : ℤ))

/-- `size = 256` (line 144). -/
def size : ℕ := 256

/-- The tile addresses fetched by the nested loops of lines 146-153, in
exactly the order the code requests them: `dy` ranges over
`range(-tiles_radius, tiles_radius + 1)` outermost (rows, y ascending) and
`dx` innermost (columns, x ascending); each fetched tile is
`(x_center + dx, y_center + dy)`. -/
def tiles_to_fetch (xc yc : ℤ) (tiles_radius : ℕ) : List (ℤ × ℤ) :=
  (pyRange (-tiles_radius) (tiles_radius + 1)).flatMap
    (fun dy => (pyRange (-tiles_radius) (tiles_radius + 1)).map
      (fun dx => (xc + dx, yc + dy)))

/-- Line 158: `stitched.paste(grid[r][c], (c * size, r * size))` - the pixel
position at which the tile in row `r`, column `c` is pasted. -/
def paste_pos (r c : ℕ) : ℕ × ℕ := (c * size, r * size)

/-- Lines 154-155: `cols = 2 * tiles_radius + 1`;
`stitched = Image.new("RGBA", (cols * size, cols * size))` - the mosaic side
in pixels, fixed before any tile is inspected. -/
def stitched_side (tiles_radius : ℕ) : ℕ := (2 * tiles_radius + 1) * size

theorem pyRange_length (a b : ℤ) : (pyRange a b).length = (b - a).toNat := by
  rw [pyRange, List.length_map, List.length_range]

theorem pyRange_getElem? (a b : ℤ) (k : ℕ) (hk : k < (b - a).toNat) :
    (pyRange a b)[k]? = some (a + k) := by
  rw [pyRange, List.getElem?_map, List.getElem?_range hk, Option.map_some']

theorem pyRange_mem (a b x : ℤ) : x ∈ pyRange a b ↔ a ≤ x ∧ x < b := by
  rw [pyRange, List.mem_map]
  constructor
  · rintro ⟨k, hk, rfl⟩
    rw [List.mem_range] at hk
    omega
  · rintro ⟨h1, h2⟩
    exact ⟨(x - a).toNat, List.mem_range.mpr (by omega), by omega⟩

theorem flatMap_getElem?_uniform {α β : Type*} (f : α → List β) (m : ℕ) :
    ∀ (l : List α), (∀ a ∈ l, (f a).length = m) →
      ∀ i j : ℕ, j < m →
        (l.flatMap f)[i * m + j]? = (l[i]?).bind (fun a => (f a)[j]?) := by
  intro l
  induction l with
  | nil => intro _ i j _; simp
  | cons x xs ih =>
    intro hm i j hj
    have hx : (f x).length = m := hm x (List.mem_cons_self x xs)
    rw [List.flatMap_cons]
    cases i with
    | zero =>
      have hidx : 0 * m + j = j := by omega
      rw [hidx, List.getElem?_append_left (by omega)]
      simp
    | succ n =>
      have hsplit : (n + 1) * m + j = (f x).length + (n * m + j) := by rw [hx]; ring
      rw [hsplit, List.getElem?_append_right (by omega)]
      have hsub : (f x).length + (n * m + j) - (f x).length = n * m + j := by omega
      rw [hsub, ih (fun a ha => hm a (List.mem_cons_of_mem x ha)) n j hj]
      simp

theorem flatMap_length_uniform {α β : Type*} (f : α → List β) (m : ℕ) :
    ∀ (l : List α), (∀ a ∈ l, (f a).length = m) →
      (l.flatMap f).length = l.length * m := by
  intro l
  induction l with
  | nil => simp
  | cons x xs ih =>
    intro hm
    rw [List.flatMap_cons, List.length_append, hm x (List.mem_cons_self x xs),
      ih (fun a ha => hm a (List.mem_cons_of_mem x ha)), List.length_cons]
    ring

/-- Claim C4: the set of tiles enumerated for fetching is exactly the integer
square `[xc - r, xc + r] × [yc - r, yc + r]`, enumerated in row-major order
(rows = y ascending, columns = x ascending) as a `(2r+1) × (2r+1)` grid: the
flat enumeration has `(2r+1)^2` entries, the entry at row `i`, column `j`
(flat index `i * (2r+1) + j`) is the tile `(xc - r + j, yc - r + i)`, and the
tile of row `i`, column `j` is pasted into the mosaic at pixel
`(j * 256, i * 256)`. -/
theorem tiles_row_major_enumeration (xc yc : ℤ) (tiles_radius i j : ℕ)
    (hi : i ≤ 2 * tiles_radius) (hj : j ≤ 2 * tiles_radius) :
    (tiles_to_fetch xc yc tiles_radius).length = (2 * tiles_radius + 1) ^ 2
    ∧ (tiles_to_fetch xc yc tiles_radius)[i * (2 * tiles_radius + 1) + j]? =
        some (xc - tiles_radius + j, yc - tiles_radius + i)
    ∧ (∀ p : ℤ × ℤ, p ∈ tiles_to_fetch xc yc tiles_radius ↔
        (xc - tiles_radius ≤ p.1 ∧ p.1 ≤ xc + tiles_radius
          ∧ yc - tiles_radius ≤ p.2 ∧ p.2 ≤ yc + tiles_radius))
    ∧ paste_pos i j = (j * 256, i * 256) := by
  have hlen : (pyRange (-(tiles_radius : ℤ)) (tiles_radius + 1)).length
      = 2 * tiles_radius + 1 := by
    rw [pyRange_length]; omega
  have hrows : ∀ dy ∈ pyRange (-(tiles_radius : ℤ)) (tiles_radius + 1),
      (((pyRange (-(tiles_radius : ℤ)) (tiles_radius + 1)).map
        (fun dx => (xc + dx, yc + dy)) : List (ℤ × ℤ))).length = 2 * tiles_radius + 1 := by
    intro dy _
    rw [List.length_map, hlen]
  refine ⟨?_, ?_, ?_, rfl⟩
  · rw [tiles_to_fetch, flatMap_length_uniform _ _ _ hrows, hlen]
    ring
  · rw [tiles_to_fetch,
      flatMap_getElem?_uniform _ _ _ hrows i j (by omega),
      pyRange_getElem? (-(tiles_radius : ℤ)) (tiles_radius + 1) i (by omega)]
    rw [Option.some_bind, List.getElem?_map,
      pyRange_getElem? (-(tiles_radius : ℤ)) (tiles_radius + 1) j (by omega),
      Option.map_some']
    simp only [Option.some.injEq, Prod.mk.injEq]
    omega
  · intro p
    rw [tiles_to_fetch, List.mem_flatMap]
    constructor
    · rintro ⟨dy, hdy, hp⟩
      rw [List.mem_map] at hp
      obtain ⟨dx, hdx, rfl⟩ := hp
      rw [pyRange_mem] at hdy hdx
      simp only [Prod.fst, Prod.snd]
      omega
    · intro hb
      refine ⟨p.2 - yc, by rw [pyRange_mem]; omega, ?_⟩
      rw [List.mem_map]
      refine ⟨p.1 - xc, by rw [pyRange_mem]; omega, ?_⟩
      rw [Prod.ext_iff]
      constructor <;> simp

theorem tiles_row_major_enumeration_witness :
    (tiles_to_fetch 10 20 1).length = 9
    ∧ (tiles_to_fetch 10 20 1)[7]? = some (10, 21)
    ∧ ((10, 21) ∈ tiles_to_fetch 10 20 1 ↔
        ((9 : ℤ) ≤ 10 ∧ (10 : ℤ) ≤ 11 ∧ (19 : ℤ) ≤ 21 ∧ (21 : ℤ) ≤ 21))
    ∧ paste_pos 2 1 = (256, 512) := by
  have h := tiles_row_major_enumeration 10 20 1 2 1 (by norm_num) (by norm_num)
  refine ⟨by simpa using h.1, by simpa using h.2.1, ?_, by simpa using h.2.2.2⟩
  simpa using h.2.2.1 (10, 21)

/-- An RGBA raster tile, modelled as its pixel function (OSM tiles and the
placeholder are 256 × 256). -/
structure Img where
  pix : ℕ → ℕ → ℕ × ℕ × ℕ × ℕ

/-- Line 151: `Image.new("RGBA", (size, size), (240, 240, 240, 255))` — the
opaque light-gray placeholder substituted when a tile fetch returns `None`. -/
def placeholder : Img := ⟨fun _ _ => (240, 240, 240, 255)⟩

/-- `Image.new("RGBA", (w, h))` with no fill colour initialises every pixel
to transparent black — the base of the stitched mosaic (line 155). -/
def blank : Img := ⟨fun _ _ => (0, 0, 0, 0)⟩

/-- Lines 146-153: the row-major grid of tile images. `fetch` models
`fetch_tile_image` (lines 131-139), which returns `None` on any network or
decode failure; a `None` is replaced by the placeholder before being stored
(`if img is None: img = Image.new(..., (240, 240, 240, 255))`). -/
def grid_imgs (fetch : ℕ → ℤ → ℤ → Option Img) (zoom : ℕ) (xc yc : ℤ)
    (tiles_radius : ℕ) : List (List Img) :=
  (pyRange (-tiles_radius) (tiles_radius + 1)).map
    (fun dy => (pyRange (-tiles_radius) (tiles_radius + 1)).map
      (fun dx => (fetch zoom (xc + dx) (yc + dy)).getD placeholder))

/-- Pixel `(x, y)` of the stitched mosaic (lines 155-158): the 256 × 256 tile
images are pasted disjointly at `(c * size, r * size)`, so the pixel comes
from grid cell row `y / 256`, column `x / 256` at intra-tile offset
`(x % 256, y % 256)`; a pixel outside every pasted tile keeps the `Image.new`
base value. -/
def stitched_pix (grid : List (List Img)) (x y : ℕ) : ℕ × ℕ × ℕ × ℕ :=
  ((((grid[y / size]?).bind (fun row => row[x / size]?)).getD blank).pix
    (x % size) (y % size))

/-- Claim C10: the mosaic construction never fails and its dimensions do not
depend on the per-tile fetch outcomes: for every fetch-outcome function the
stitched image is the fixed square of side `(2 × tiles_radius + 1) × 256`
(chosen by `Image.new` before any tile is inspected), the grid always has
`2 × tiles_radius + 1` rows of `2 × tiles_radius + 1` images each, and every
tile whose fetch yields nothing contributes the opaque light-gray
`(240, 240, 240, 255)` placeholder at every pixel of its grid position. -/
theorem mosaic_total_with_placeholder (fetch : ℕ → ℤ → ℤ → Option Img)
    (zoom : ℕ) (xc yc : ℤ) (tiles_radius i j px py : ℕ)
    (hi : i ≤ 2 * tiles_radius) (hj : j ≤ 2 * tiles_radius)
    (hpx : px < 256) (hpy : py < 256)
    (hfail : fetch zoom (xc - tiles_radius + j) (yc - tiles_radius + i) = none) :
    stitched_side tiles_radius = (2 * tiles_radius + 1) * 256
    ∧ (grid_imgs fetch zoom xc yc tiles_radius).length = 2 * tiles_radius + 1
    ∧ (∀ row ∈ grid_imgs fetch zoom xc yc tiles_radius, row.length = 2 * tiles_radius + 1)
    ∧ stitched_pix (grid_imgs fetch zoom xc yc tiles_radius) (j * 256 + px) (i * 256 + py)
        = (240, 240, 240, 255) := by
  have hlen : (pyRange (-(tiles_radius : ℤ)) (tiles_radius + 1)).length
      = 2 * tiles_radius + 1 := by
    rw [pyRange_length]; omega
  refine ⟨rfl, ?_, ?_, ?_⟩
  · rw [grid_imgs, List.length_map, hlen]
  · intro row hrow
    rw [grid_imgs, List.mem_map] at hrow
    obtain ⟨dy, _, rfl⟩ := hrow
    rw [List.length_map, hlen]
  · have hdy : (i * 256 + py) / size = i := by rw [size]; omega
    have hdx : (j * 256 + px) / size = j := by rw [size]; omega
    have hmy : (i * 256 + py) % size = py := by rw [size]; omega
    have hmx : (j * 256 + px) % size = px := by rw [size]; omega
    rw [stitched_pix, hdy, hdx, hmy, hmx, grid_imgs, List.getElem?_map,
      pyRange_getElem? (-(tiles_radius : ℤ)) (tiles_radius + 1) i (by omega),
      Option.map_some', Option.some_bind, List.getElem?_map,
      pyRange_getElem? (-(tiles_radius : ℤ)) (tiles_radius + 1) j (by omega),
      Option.map_some']
    have hxarg : xc + (-(tiles_radius : ℤ) + j) = xc - tiles_radius + j := by ring
    have hyarg : yc + (-(tiles_radius : ℤ) + i) = yc - tiles_radius + i := by ring
    rw [hxarg, hyarg, hfail]
    rfl

theorem mosaic_total_with_placeholder_witness :
    stitched_side 1 = 3 * 256
    ∧ stitched_pix (grid_imgs (fun _ _ _ => none) 14 3 4 1) (2 * 256 + 0) (1 * 256 + 5)
        = (240, 240, 240, 255) := by
  have h := mosaic_total_with_placeholder (fun _ _ _ => none) 14 3 4 1 1 2 0 5
    (by norm_num) (by norm_num) (by norm_num) (by norm_num) rfl
  exact ⟨by simpa using h.1, h.2.2.2⟩

/-! ## Sub-tile offset and buffer radius, `app.py` lines 159-163 -/

/-- Python's `int()` applied to a float: truncation toward zero. -/
noncomputable def pyInt (x : ℝ) : ℤ := if 0 ≤ x then ⌊x⌋ else ⌈x⌉

/-- `frac_x = xtile_f - x_center` (line 159). -/
noncomputable def frac_x (lat lon : ℝ) (zoom : ℕ) : ℝ :=
  (latlon_to_tile_xy lat lon zoom).1 - x_center lat lon zoom

/-- `frac_y = ytile_f - y_center` (line 159). -/
noncomputable def frac_y (lat lon : ℝ) (zoom : ℕ) : ℝ :=
  (latlon_to_tile_xy lat lon zoom).2 - y_center lat lon zoom

/-- Line 160: `center_px = (tiles_radius * size + int(frac_x * size),
tiles_radius * size + int(frac_y * size))`. -/
noncomputable def center_px (lat lon : ℝ) (zoom tiles_radius : ℕ) : ℤ × ℤ :=
  (((tiles_radius * size : ℕ) : ℤ) + pyInt (frac_x lat lon zoom * (size : ℝ)),
   ((tiles_radius * size : ℕ) : ℤ) + pyInt (frac_y lat lon zoom * (size : ℝ)))

/-- Lines 161-162: `R = 6378137.0`;
`mpp = (cos(radians(lat)) * 2 * pi * R) / (256 * (2 ** zoom))`. -/
noncomputable def mpp (lat : ℝ) (zoom : ℕ) : ℝ :=
  (Real.cos (radians lat) * 2 * Real.pi * 6378137) / (256 * 2 ^ zoom)

/-- Line 163: `radius_px = max(2, int(buffer_m / mpp))`. -/
noncomputable def radius_px (lat : ℝ) (zoom : ℕ) (buffer_m : ℝ) : ℤ :=
  max 2 (pyInt (buffer_m / mpp lat zoom))

/-- Claim C6, counterexample: at `lat = 0`, `lon = 1`, `zoom = 0`,
`tiles_radius = 1` the fractional x tile coordinate is `181/360`, so the
claimed offset `tile_radius × 256 + frac_x × 256 = 256 + 46336/360` is not an
integer number of pixels, while the code's line 160 truncates with `int()`
and returns `256 + 128 = 384`; the two values differ. -/
theorem center_px_truncation_counterexample :
    (center_px 0 1 0 1).1 = 384
    ∧ (1 : ℝ) * 256 + frac_x 0 1 0 * 256 ≠ ((384 : ℤ) : ℝ) := by
  have hx : (latlon_to_tile_xy 0 1 0).1 = 181 / 360 := by
    rw [latlon_to_tile_xy]
    norm_num
  have hxc : x_center 0 1 0 = 0 := by
    rw [x_center, hx]
    rw [Int.floor_eq_zero_iff]
    constructor <;> norm_num
  have hf : frac_x 0 1 0 = 181 / 360 := by
    rw [frac_x, hx, hxc]
    norm_num
  have harg : frac_x 0 1 0 * ((size : ℕ) : ℝ) = 5792 / 45 := by
    rw [hf, size]
    norm_num
  have hp : pyInt (frac_x 0 1 0 * ((size : ℕ) : ℝ)) = 128 := by
    rw [harg, pyInt, if_pos (by norm_num)]
    rw [Int.floor_eq_iff]
    constructor <;> norm_num
  constructor
  · rw [center_px]
    simp only []
    rw [hp, size]
    norm_num
  · rw [hf]
    norm_num

/-- Claim C6, amended: the mosaic offset of the geographic point is
`(tile_radius × 256 + int(frac_x × 256), tile_radius × 256 + int(frac_y × 256))`
with `frac = fractional tile coordinate - center` and `int()` the Python
truncation toward zero (the code truncates the sub-tile offset to whole
pixels); for `tile_radius = 1` each offset coordinate lies within
`[0, 3 × 256)`. -/
theorem center_px_trunc_and_range (lat lon : ℝ) (zoom : ℕ) :
    center_px lat lon zoom 1 =
      (256 + pyInt (frac_x lat lon zoom * 256), 256 + pyInt (frac_y lat lon zoom * 256))
    ∧ 0 ≤ (center_px lat lon zoom 1).1 ∧ (center_px lat lon zoom 1).1 < 3 * 256
    ∧ 0 ≤ (center_px lat lon zoom 1).2 ∧ (center_px lat lon zoom 1).2 < 3 * 256 := by
  have hsize : ((1 * size : ℕ) : ℤ) = 256 := by rw [size]; norm_num
  have hsizeR : ((size : ℕ) : ℝ) = 256 := by rw [size]; norm_num
  have bound : ∀ t : ℝ, 0 ≤ pyInt (Int.fract t * 256) ∧ pyInt (Int.fract t * 256) < 256 := by
    intro t
    have h0 : (0 : ℝ) ≤ Int.fract t * 256 :=
      mul_nonneg (Int.fract_nonneg t) (by norm_num)
    have h1 : Int.fract t * 256 < 256 := by
      nlinarith [Int.fract_lt_one t]
    rw [pyInt, if_pos h0]
    refine ⟨Int.floor_nonneg.mpr h0, ?_⟩
    exact Int.floor_lt.mpr (by exact_mod_cast h1)
  have hfx : frac_x lat lon zoom = Int.fract (latlon_to_tile_xy lat lon zoom).1 := rfl
  have hfy : frac_y lat lon zoom = Int.fract (latlon_to_tile_xy lat lon zoom).2 := rfl
  have hb1 := bound (latlon_to_tile_xy lat lon zoom).1
  have hb2 := bound (latlon_to_tile_xy lat lon zoom).2
  refine ⟨?_, ?_, ?_, ?_, ?_⟩
  · rw [center_px, hsize, hsizeR]
  · rw [center_px]
    simp only []
    rw [hsize, hsizeR, hfx]
    omega
  · rw [center_px]
    simp only []
    rw [hsize, hsizeR, hfx]
    omega
  · rw [center_px]
    simp only []
    rw [hsize, hsizeR, hfy]
    omega
  · rw [center_px]
    simp only []
    rw [hsize, hsizeR, hfy]
    omega

theorem mpp_zero_zero : mpp 0 0 = Real.pi * 6378137 / 128 := by
  have h : radians 0 = 0 := by rw [radians]; ring
  rw [mpp, h, Real.cos_zero]
  norm_num
  ring

/-- Claim C5, counterexample: at `lat = 0`, `zoom = 0`,
`buffer_m = 407000` the ratio `buffer_m / mpp = 52096000 / (π × 6378137)`
lies strictly between `2.5` and `3`, so the claimed
`max(2, round(buffer_m / mpp))` is `3`, while the code's line 163
(`max(2, int(buffer_m / mpp))`, truncation) yields `2`: the code truncates
rather than rounds, and the claimed formula disagrees with it. -/
theorem radius_px_truncates_counterexample :
    radius_px 0 0 407000 = 2 ∧ max 2 (round ((407000 : ℝ) / mpp 0 0)) = 3 := by
  have hx : (407000 : ℝ) / mpp 0 0 = 52096000 / (Real.pi * 6378137) := by
    rw [mpp_zero_zero]
    rw [div_div_eq_mul_div]
    norm_num
  have hpos : (0 : ℝ) < Real.pi * 6378137 := by positivity
  have hlo : (5 / 2 : ℝ) < (407000 : ℝ) / mpp 0 0 := by
    rw [hx, lt_div_iff₀ hpos]
    nlinarith [Real.pi_lt_d2]
  have hhi : (407000 : ℝ) / mpp 0 0 < 3 := by
    rw [hx, div_lt_iff₀ hpos]
    nlinarith [Real.pi_gt_d2]
  constructor
  · rw [radius_px, pyInt, if_pos (by linarith)]
    have hfl : ⌊(407000 : ℝ) / mpp 0 0⌋ = 2 := by
      rw [Int.floor_eq_iff]
      constructor
      · push_cast
        linarith
      · push_cast
        linarith
    rw [hfl]
    norm_num
  · have hr : round ((407000 : ℝ) / mpp 0 0) = 3 := by
      rw [round_eq, Int.floor_eq_iff]
      constructor
      · push_cast
        linarith
      · push_cast
        linarith
    rw [hr]
    norm_num

/-- Claim C5, amended: the pixel radius is
`max(MIN_PIXEL_RADIUS, int(buffer_m / meters_per_pixel))` with
`MIN_PIXEL_RADIUS = 2` and `int()` the Python truncation toward zero (the
code truncates, it does not round); consequently the radius is never below
the floor of `2`, and for any buffer small enough that
`buffer_m < 3 × meters_per_pixel` (in particular for arbitrarily small
positive buffers) the radius is exactly `2`. -/
theorem radius_px_floor_and_min (lat : ℝ) (zoom : ℕ) (buffer_m : ℝ)
    (h1 : 0 ≤ buffer_m) (h2 : buffer_m < 3 * mpp lat zoom) :
    radius_px lat zoom buffer_m = max 2 (pyInt (buffer_m / mpp lat zoom))
    ∧ radius_px lat zoom buffer_m = 2
    ∧ (2 : ℤ) ≤ radius_px lat zoom buffer_m := by
  have hmpp : 0 < mpp lat zoom := by nlinarith
  have hx0 : 0 ≤ buffer_m / mpp lat zoom := div_nonneg h1 hmpp.le
  have hx3 : buffer_m / mpp lat zoom < 3 := by
    rw [div_lt_iff₀ hmpp]
    linarith
  have hfl : pyInt (buffer_m / mpp lat zoom) ≤ 2 := by
    rw [pyInt, if_pos hx0]
    have h := Int.floor_lt.mpr (by exact_mod_cast hx3 :
      buffer_m / mpp lat zoom < ((3 : ℤ) : ℝ))
    omega
  exact ⟨rfl, by rw [radius_px, max_eq_left hfl], le_max_left _ _⟩

theorem radius_px_floor_and_min_witness :
    radius_px 0 0 1 = max 2 (pyInt ((1 : ℝ) / mpp 0 0))
    ∧ radius_px 0 0 1 = 2
    ∧ (2 : ℤ) ≤ radius_px 0 0 1 :=
  radius_px_floor_and_min 0 0 1 (by norm_num)
    (by rw [mpp_zero_zero]; nlinarith [Real.pi_gt_three])
